import Mathlib

/-!
Verification of the single-node job scheduler (`app.py`) against its
natural-language specification.

The embedding models the mutable globals of `app.py`:
  * `heap` — the min-heap of `(run_at, job_id)` tuples (Python `heapq`
    orders tuples lexicographically: first by `run_at`, ties by the
    job-id string);
  * `jobs` — the in-memory map from job id to job record.
Timestamps are modelled as integers (the code uses floats only through
addition and comparison, so an ordered additive carrier is faithful for
the scenarios of the spec).  The executor's work callback is modelled as
an explicit success/failure outcome, as the spec treats it as an
injected external capability.  `persist_job` calls are recorded as a
list of persisted snapshots, in call order.
-/

namespace Scheduler

/-- Job status strings used by `app.py` (plus `running`, which appears in
persisted data per the spec's data model but is never assigned by the code). -/
inductive Status where
  | scheduled
  | running
  | done
  | cancelled
  | dead
deriving DecidableEq, Repr

/-- A job record, mirroring the job dict built in `create_job`. -/
structure Job where
  id : String
  run_at : Int
  payload : String
  status : Status
  retries : Nat
  recurring : Bool
  interval : Int
deriving DecidableEq, Repr

/-- A heap entry `(run_at, job_id)` as pushed by `heapq.heappush`. -/
abbrev Entry := Int × String

/-- Python string comparison: lexicographic on Unicode code points. -/
def charListLt : List Char → List Char → Bool
  | [], [] => false
  | [], _ :: _ => true
  | _ :: _, [] => false
  | a :: as, b :: bs =>
    if a < b then true
    else if a = b then charListLt as bs
    else false

/-- Python string comparison lifted to `String`. -/
def strLt (a b : String) : Bool := charListLt a.data b.data

/-- Python tuple comparison on `(run_at, job_id)` entries: compare
`run_at` first, break ties by the job-id string. -/
def entryLt (a b : Entry) : Bool :=
  if a.1 < b.1 then true
  else if a.1 = b.1 then strLt a.2 b.2
  else false

/-- The minimum entry of the heap (what `heap[0]` / `heappop` yields). -/
def heapMin : List Entry → Option Entry
  | [] => none
  | e :: rest =>
    match heapMin rest with
    | none => some e
    | some m => some (if entryLt m e then m else e)

/-- Remove the first occurrence of an entry from the heap (the effect of
`heappop` on the popped minimum). -/
def removeEntry : List Entry → Entry → List Entry
  | [], _ => []
  | e :: rest, x => if e = x then rest else e :: removeEntry rest x

/-- `heapq.heappush heap e` — position in the bag is irrelevant because
popping always takes the minimum. -/
def heapPush (h : List Entry) (e : Entry) : List Entry := e :: h

/-- Association-list update for the `jobs` dict: `jobs[k] = v`. -/
def insertJob : List (String × Job) → String → Job → List (String × Job)
  | [], k, v => [(k, v)]
  | (k', v') :: rest, k, v =>
    if k' = k then (k, v) :: rest else (k', v') :: insertJob rest k v

/-- Association-list lookup for the `jobs` dict: `jobs.get(k)`. -/
def lookupJob : List (String × Job) → String → Option Job
  | [], _ => none
  | (k', v') :: rest, k => if k' = k then some v' else lookupJob rest k

/-- The shared in-memory state of `app.py`: the `heap` and the `jobs` map. -/
structure State where
  heap : List Entry
  jobs : List (String × Job)
deriving DecidableEq, Repr

/-- The empty state at process start. -/
def initState : State := { heap := [], jobs := [] }

/-- `create_job` (POST /jobs): builds a job with status `scheduled`,
`retries = 0`, `run_at = now + delay`, stores it in the map, pushes
`(run_at, id)` onto the heap.  No validation of `delay` or `interval`
is performed by the code.  The fresh uuid is a parameter. -/
def create_job (st : State) (now delay : Int) (payload : String)
    (jobId : String) (recurring : Bool) (interval : Int) : State × Job :=
  let run_at := now + delay
  let job : Job :=
    { id := jobId, run_at := run_at, payload := payload,
      status := Status.scheduled, retries := 0,
      recurring := recurring, interval := interval }
  ({ heap := heapPush st.heap (run_at, jobId),
     jobs := insertJob st.jobs jobId job }, job)

/-- `delete_job` (DELETE /jobs/id): if the id exists, sets its status to
`cancelled` unconditionally and returns `true` (HTTP ok); otherwise
returns `false` (HTTP 404).  The heap is not touched. -/
def delete_job (st : State) (jobId : String) : State × Bool :=
  match lookupJob st.jobs jobId with
  | none => (st, false)
  | some job =>
      ({ st with jobs := insertJob st.jobs jobId { job with status := Status.cancelled } },
       true)

/-- One cycle of `scheduler_loop`: if the heap minimum is due
(`run_at ≤ now`), pop it and look the job up; a found job is handed to
`execute_job` on a fresh thread (returned here as `some id`).  The
status is neither checked nor changed by the dispatcher. -/
def scheduler_step (st : State) (now : Int) : State × Option String :=
  match heapMin st.heap with
  | none => (st, none)
  | some e =>
    if e.1 ≤ now then
      let st' : State := { st with heap := removeEntry st.heap e }
      match lookupJob st'.jobs e.2 with
      | some _ => (st', some e.2)
      | none => (st', none)
    else (st, none)

/-- `execute_job`, with the work outcome made explicit.  On success:
mark `done`, persist; if recurring, set `run_at := now + interval`,
status `scheduled`, push onto the heap, persist again.  On failure:
increment `retries`; if `retries ≤ 3` reschedule at `now + 2` and push;
otherwise mark `dead` and do not push.  Returns the new state and the
list of persisted snapshots in call order. -/
def execute_job (st : State) (jobId : String) (now : Int) (success : Bool) :
    State × List Job :=
  match lookupJob st.jobs jobId with
  | none => (st, [])
  | some job =>
    if success then
      let jobDone := { job with status := Status.done }
      if jobDone.recurring then
        let jobNext :=
          { jobDone with run_at := now + jobDone.interval, status := Status.scheduled }
        ({ heap := heapPush st.heap (jobNext.run_at, jobId),
           jobs := insertJob st.jobs jobId jobNext },
         [jobDone, jobNext])
      else
        ({ st with jobs := insertJob st.jobs jobId jobDone }, [jobDone])
    else
      let r := job.retries + 1
      if r ≤ 3 then
        let jobRetry :=
          { job with retries := r, status := Status.scheduled, run_at := now + 2 }
        ({ heap := heapPush st.heap (jobRetry.run_at, jobId),
           jobs := insertJob st.jobs jobId jobRetry },
         [jobRetry])
      else
        let jobDead := { job with retries := r, status := Status.dead }
        ({ st with jobs := insertJob st.jobs jobId jobDead }, [jobDead])

/-- One failed execution attempt (state part only). -/
def failAttempt (st : State) (jobId : String) (now : Int) : State :=
  (execute_job st jobId now false).1

/-- `load_jobs_at_start`: every persisted row whose status is not `done`
is put into the `jobs` map and its `(run_at, id)` entry pushed onto the
heap, regardless of status. -/
def load_jobs_at_start : List Job → State → State
  | [], st => st
  | job :: rest, st =>
    if job.status ≠ Status.done then
      load_jobs_at_start rest
        { heap := heapPush st.heap (job.run_at, job.id),
          jobs := insertJob st.jobs job.id job }
    else
      load_jobs_at_start rest st

/-- The heap entries carrying a given job id. -/
def entriesFor (h : List Entry) (jobId : String) : List Entry :=
  h.filter (fun e => e.2 == jobId)

/-! ### Concrete scenario states (building blocks for the scenarios of §8) -/

/-- A fixed job id standing for the uuid assigned at creation. -/
def jid : String := "j"

/-- A fixed opaque payload. -/
def pl : String := "p"

/-- Scenario 4 start: a job submitted at `t = 0` with delay 60. -/
def stSched : State := (create_job initState 0 60 pl jid false 0).1

/-- Scenario 4 after cancellation: `DELETE /jobs/j` right after creation. -/
def stCancelled : State := (delete_job stSched jid).1

/-- A job submitted at `t = 0` with delay 0 (Scenarios 1–3 start). -/
def stFresh : State := (create_job initState 0 0 pl jid false 0).1

/-- Scenario 1 end: the fresh job after one successful execution. -/
def stDone : State := (execute_job stFresh jid 1 true).1

/-- Scenario 3: the fresh job after 1, 2, 3 and 4 failing attempts. -/
def stF1 : State := failAttempt stFresh jid 10
def stF2 : State := failAttempt stF1 jid 20
def stF3 : State := failAttempt stF2 jid 30
def stF4 : State := failAttempt stF3 jid 40

/-- Ordering scenario: the uuid drawn for the first-submitted job A. -/
def uuidA : String := "b"

/-- Ordering scenario: the uuid drawn for the second-submitted job B. -/
def uuidB : String := "a"

/-- Ordering scenario: the uuid drawn for the third-submitted job C. -/
def uuidC : String := "c"

/-- Ordering scenario: A (`run_at = 10`), then B (`run_at = 10`), then
C (`run_at = 15`), submitted in that order at `t = 0`. -/
def stOrder : State :=
  (create_job (create_job (create_job initState 0 10 pl uuidA false 0).1
      0 10 pl uuidB false 0).1 0 15 pl uuidC false 0).1

/-- The three dispatcher cycles at `t = 20`, when all three are due. -/
def ordPop1 : State × Option String := scheduler_step stOrder 20
def ordPop2 : State × Option String := scheduler_step ordPop1.1 20
def ordPop3 : State × Option String := scheduler_step ordPop2.1 20

/-- Invalid-input scenario: create with `delay = -1` and `interval = -5`
at `t = 100`. -/
def stInvalid : State := (create_job initState 100 (-1) pl jid false (-5)).1

/-- Persisted rows for the startup scenario: one job per non-`done`
status plus a `done` one, with distinct ids. -/
def rowCancelled : Job :=
  { id := "r1", run_at := 11, payload := pl, status := Status.cancelled,
    retries := 0, recurring := false, interval := 0 }

def rowDead : Job :=
  { id := "r2", run_at := 12, payload := pl, status := Status.dead,
    retries := 4, recurring := false, interval := 0 }

def rowRunning : Job :=
  { id := "r3", run_at := 13, payload := pl, status := Status.running,
    retries := 0, recurring := false, interval := 0 }

def rowDone : Job :=
  { id := "r4", run_at := 14, payload := pl, status := Status.done,
    retries := 0, recurring := true, interval := 7 }

def startupRows : List Job := [rowCancelled, rowDead, rowRunning, rowDone]

/-- The job record stored by `create_job` in `stSched`. -/
def jobSched : Job :=
  { id := jid, run_at := 60, payload := pl, status := Status.scheduled,
    retries := 0, recurring := false, interval := 0 }

/-- The job record stored by `create_job` in `stFresh`. -/
def jobFresh : Job :=
  { id := jid, run_at := 0, payload := pl, status := Status.scheduled,
    retries := 0, recurring := false, interval := 0 }

/-- The job record after three failing attempts (`stF3`). -/
def jobF3 : Job :=
  { id := jid, run_at := 32, payload := pl, status := Status.scheduled,
    retries := 3, recurring := false, interval := 0 }

/-- The job record after the fourth failing attempt (`stF4`). -/
def jobF4 : Job :=
  { id := jid, run_at := 32, payload := pl, status := Status.dead,
    retries := 4, recurring := false, interval := 0 }

/-- Scenario 2 start: a recurring job (`interval = 10`) with delay 0. -/
def stRec : State := (create_job initState 0 0 pl jid true 10).1

/-- The job record stored by `create_job` in `stRec`. -/
def jobRec : Job :=
  { id := jid, run_at := 0, payload := pl, status := Status.scheduled,
    retries := 0, recurring := true, interval := 10 }

/-- Submit three jobs in order — A (`run_at = t`, uuid `a`), B
(`run_at = t`, uuid `b`), C (`run_at = t + 5`, uuid `c`) — at `t = 0`. -/
def submitABC (t : Int) (a b c pa pb pc : String) : State :=
  (create_job (create_job (create_job initState 0 t pa a false 0).1
      0 t pb b false 0).1 0 (t + 5) pc c false 0).1

/-! ### Basic lemmas about the map and the heap -/

theorem lookupJob_insertJob_self (m : List (String × Job)) (k : String) (v : Job) :
    lookupJob (insertJob m k v) k = some v := by
  induction m with
  | nil => simp [insertJob, lookupJob]
  | cons p rest ih =>
    by_cases h : p.1 = k
    · simp [insertJob, lookupJob, h]
    · simp [insertJob, lookupJob, h, ih]

theorem lookupJob_insertJob_ne (m : List (String × Job)) (k k' : String) (v : Job)
    (h : k ≠ k') : lookupJob (insertJob m k v) k' = lookupJob m k' := by
  induction m with
  | nil => simp [insertJob, lookupJob, h]
  | cons p rest ih =>
    by_cases hp : p.1 = k
    · simp [insertJob, lookupJob, hp, h]
    · simp [insertJob, lookupJob, hp, ih]

theorem entriesFor_push_ne (h : List Entry) (t : Int) (k i : String) (hne : k ≠ i) :
    entriesFor (heapPush h (t, k)) i = entriesFor h i := by
  simp [entriesFor, heapPush, List.filter_cons, hne]

theorem entriesFor_push_self (h : List Entry) (t : Int) (i : String) :
    entriesFor (heapPush h (t, i)) i = (t, i) :: entriesFor h i := by
  simp [entriesFor, heapPush, List.filter_cons]

/-! ### The claims -/

/-- Claim C1: the spec's invariant — status `scheduled` iff exactly one
pending queue entry — is supposed to be preserved by every operation.
The code violates it at the cancellation boundary (exactly where the
spec says the original design breaks it, §3/§9): after Create (delay 60
at `t = 0`) followed by Cancel, the job's status is `cancelled` yet its
pending heap entry `(60, id)` is still present. -/
theorem cancel_violates_queue_invariant :
    (lookupJob stCancelled.jobs jid).map Job.status = some Status.cancelled ∧
    entriesFor stCancelled.heap jid = [(60, jid)] := by decide

/-- Claim C2: a cancelled job must never be dispatched.  In the code,
Cancel neither removes the heap entry nor is the status checked by the
dispatcher, so once time passes `run_at` (here `now = 100 > 60`) the
scheduler pops the entry and hands the still-`cancelled` job to
`execute_job`: the cancelled job IS dispatched. -/
theorem cancelled_job_still_dispatched :
    (lookupJob stCancelled.jobs jid).map Job.status = some Status.cancelled ∧
    (scheduler_step stCancelled 100).2 = some jid := by decide

/-- Claim C3, counterexample: Cancel is supposed to change the status
only when it is `scheduled` and leave terminal jobs untouched.  In the
code `delete_job` overwrites the status unconditionally: cancelling a
job that has already reached `done` turns it into `cancelled`. -/
theorem cancel_overwrites_terminal_status :
    (lookupJob stDone.jobs jid).map Job.status = some Status.done ∧
    (lookupJob ((delete_job stDone jid).1).jobs jid).map Job.status =
      some Status.cancelled := by decide

/-- Claim C5, counterexample: a job created fresh (`retries = 0`) whose
callback fails on all four attempts reaches the terminal `dead` status
with `retries = 4`, which exceeds the configured maximum `MaxRetries = 3`.
The spec's invariant "`retries` never exceeds the configured maximum
once terminal `dead` status is reached" is false of the code (and
contradicts the spec's own Scenario 3). -/
theorem dead_job_retries_exceed_max :
    (lookupJob stF4.jobs jid).map Job.status = some Status.dead ∧
    (lookupJob stF4.jobs jid).map Job.retries = some 4 ∧
    ¬ (4 ≤ 3) := by decide

/-- Claim C9, counterexample: a create request with negative delay and
negative interval is supposed to be rejected with a validation error.
The code performs no validation: the job is built, stored in the map
with status `scheduled`, and its entry `(now + delay, id) = (99, id)`
enters the queue. -/
theorem invalid_create_accepted :
    lookupJob stInvalid.jobs jid =
      some { id := jid, run_at := 99, payload := pl, status := Status.scheduled,
             retries := 0, recurring := false, interval := -5 } ∧
    stInvalid.heap = [(99, jid)] := by decide

/-- Claim C7, counterexample: dispatch ties on equal `run_at` are
supposed to be broken by insertion order (FIFO).  Job A is submitted
first (uuid "b", `run_at = 10`), then B (uuid "a", `run_at = 10`), then
C (uuid "c", `run_at = 15`); at `t = 20` the dispatcher pops B before A
(then C), because Python's heap tuples compare the uuid strings on
ties, not the insertion order. -/
theorem equal_run_at_not_fifo :
    ordPop1.2 = some uuidB ∧ ordPop2.2 = some uuidA ∧ ordPop3.2 = some uuidC ∧
    uuidB ≠ uuidA := by decide

/-- Claim C6, counterexample: the dispatcher is supposed to transition a
popped `scheduled` job to `running` before handing it to the executor,
and to discard a popped job that is no longer `scheduled`.  The code
does neither: a fresh due job is handed over while its stored status is
still `scheduled` (a `running` status is never assigned anywhere), and
the cancelled job of Scenario 4 is handed over rather than discarded. -/
theorem dispatcher_skips_running_transition :
    ((scheduler_step stFresh 0).2 = some jid ∧
     (lookupJob (scheduler_step stFresh 0).1.jobs jid).map Job.status =
       some Status.scheduled) ∧
    ((scheduler_step stCancelled 70).2 = some jid ∧
     (lookupJob (scheduler_step stCancelled 70).1.jobs jid).map Job.status =
       some Status.cancelled) := by decide

/-- Claim C3 (amended): for every existing job id, Cancel sets the
status to `cancelled` unconditionally, whatever the current status;
the heap is untouched; and a second Cancel on the same id leaves the
status `cancelled` (idempotent in the resulting value). -/
theorem cancel_unconditional (st : State) (i : String) (job : Job)
    (h : lookupJob st.jobs i = some job) :
    (delete_job st i).2 = true ∧
    lookupJob (delete_job st i).1.jobs i = some { job with status := Status.cancelled } ∧
    (delete_job st i).1.heap = st.heap ∧
    lookupJob ((delete_job (delete_job st i).1 i).1).jobs i =
      some { job with status := Status.cancelled } := by
  simp [delete_job, h, lookupJob_insertJob_self]

/-- Witness for `cancel_unconditional` at the Scenario 4 job. -/
theorem cancel_unconditional_witness :
    lookupJob stSched.jobs jid = some jobSched ∧
    ((delete_job stSched jid).2 = true ∧
     lookupJob (delete_job stSched jid).1.jobs jid =
       some { jobSched with status := Status.cancelled } ∧
     (delete_job stSched jid).1.heap = stSched.heap ∧
     lookupJob ((delete_job (delete_job stSched jid).1 jid).1).jobs jid =
       some { jobSched with status := Status.cancelled }) :=
  ⟨by decide, cancel_unconditional stSched jid jobSched (by decide)⟩

/-- Claim C4: each failing executor run increments `retries` by exactly
one; while the incremented count is still `≤ MaxRetries = 3` the job is
reset to `scheduled` with `run_at = now + 2` and its entry re-pushed
onto the queue; once the count exceeds 3 (i.e. on the fourth total
attempt of a job created with `retries = 0`) the job becomes `dead`
with `retries = 4` and nothing is re-inserted. -/
theorem retry_policy_per_attempt (st : State) (i : String) (now : Int) (job : Job)
    (h : lookupJob st.jobs i = some job) :
    ∃ job', lookupJob (failAttempt st i now).jobs i = some job' ∧
      job'.retries = job.retries + 1 ∧
      (job.retries + 1 ≤ 3 →
        job'.status = Status.scheduled ∧ job'.run_at = now + 2 ∧
        (failAttempt st i now).heap = heapPush st.heap (now + 2, i)) ∧
      (3 < job.retries + 1 →
        job'.status = Status.dead ∧ (failAttempt st i now).heap = st.heap) := by
  by_cases hr : job.retries + 1 ≤ 3
  · refine ⟨{ job with retries := job.retries + 1, status := Status.scheduled, run_at := now + 2 }, ?_, rfl, ?_, ?_⟩
    · simp [failAttempt, execute_job, h, hr, lookupJob_insertJob_self]
    · intro _
      refine ⟨rfl, rfl, ?_⟩
      simp [failAttempt, execute_job, h, hr]
    · intro hc; omega
  · refine ⟨{ job with retries := job.retries + 1, status := Status.dead }, ?_, rfl, ?_, ?_⟩
    · simp [failAttempt, execute_job, h, hr, lookupJob_insertJob_self]
    · intro hc; omega
    · intro _
      refine ⟨rfl, ?_⟩
      simp [failAttempt, execute_job, h, hr]

/-- Witness for `retry_policy_per_attempt` at the fresh Scenario 3 job. -/
theorem retry_policy_per_attempt_witness :
    lookupJob stFresh.jobs jid = some jobFresh ∧
    (∃ job', lookupJob (failAttempt stFresh jid 10).jobs jid = some job' ∧
      job'.retries = jobFresh.retries + 1 ∧
      (jobFresh.retries + 1 ≤ 3 →
        job'.status = Status.scheduled ∧ job'.run_at = 10 + 2 ∧
        (failAttempt stFresh jid 10).heap = heapPush stFresh.heap (10 + 2, jid)) ∧
      (3 < jobFresh.retries + 1 →
        job'.status = Status.dead ∧ (failAttempt stFresh jid 10).heap = stFresh.heap)) :=
  ⟨by decide, retry_policy_per_attempt stFresh jid 10 jobFresh (by decide)⟩

/-- Claim C5 (amended): whenever a failing run moves a job to `dead`,
the resulting `retries` is the old count plus one and strictly exceeds
`MaxRetries = 3`; in particular a job arriving there with `retries = 3`
(the standard path from a fresh job) ends with exactly
`MaxRetries + 1 = 4`. -/
theorem dead_transition_retries_bound (st : State) (i : String) (now : Int)
    (job job' : Job)
    (h : lookupJob st.jobs i = some job)
    (h' : lookupJob (failAttempt st i now).jobs i = some job')
    (hd : job'.status = Status.dead) :
    job'.retries = job.retries + 1 ∧ 3 < job'.retries ∧
    (job.retries = 3 → job'.retries = 4) := by
  by_cases hr : job.retries + 1 ≤ 3
  · simp [failAttempt, execute_job, h, hr, lookupJob_insertJob_self] at h'
    rw [← h'] at hd
    simp at hd
  · simp [failAttempt, execute_job, h, hr, lookupJob_insertJob_self] at h'
    rw [← h']
    refine ⟨rfl, ?_, ?_⟩
    · show 3 < job.retries + 1
      omega
    · intro h3
      show job.retries + 1 = 4
      omega

/-- Witness for `dead_transition_retries_bound` at the fourth failing
attempt of Scenario 3. -/
theorem dead_transition_retries_bound_witness :
    (lookupJob stF3.jobs jid = some jobF3 ∧
     lookupJob (failAttempt stF3 jid 40).jobs jid = some jobF4 ∧
     jobF4.status = Status.dead) ∧
    (jobF4.retries = jobF3.retries + 1 ∧ 3 < jobF4.retries ∧
     (jobF3.retries = 3 → jobF4.retries = 4)) :=
  ⟨⟨by decide, by decide, by decide⟩,
   dead_transition_retries_bound stF3 jid 40 jobF3 jobF4 (by decide) (by decide) (by decide)⟩

/-- Claim C6 (amended): the dispatcher pops the due minimum entry and
hands the corresponding job to the executor without inspecting or
changing its status (in particular no `running` status is ever
assigned, and a concurrently-cancelled job is handed over rather than
discarded); a job whose callback then succeeds moves directly to
`done`. -/
theorem dispatcher_hands_over_unchecked (st : State) (now : Int) (e : Entry) (job : Job)
    (hmin : heapMin st.heap = some e) (hdue : e.1 ≤ now)
    (hjob : lookupJob st.jobs e.2 = some job) :
    (scheduler_step st now).2 = some e.2 ∧
    (scheduler_step st now).1.jobs = st.jobs ∧
    (scheduler_step st now).1.heap = removeEntry st.heap e ∧
    (job.recurring = false →
      (lookupJob (execute_job (scheduler_step st now).1 e.2 now true).1.jobs e.2).map
        Job.status = some Status.done) := by
  have hstep : scheduler_step st now = ({ st with heap := removeEntry st.heap e }, some e.2) := by
    simp [scheduler_step, hmin, hdue, hjob]
  rw [hstep]
  refine ⟨rfl, rfl, rfl, ?_⟩
  intro hrec
  simp [execute_job, hjob, hrec, lookupJob_insertJob_self]

/-- Witness for `dispatcher_hands_over_unchecked` at the fresh due job. -/
theorem dispatcher_hands_over_unchecked_witness :
    (heapMin stFresh.heap = some (0, jid) ∧ (0 : Int) ≤ 0 ∧
     lookupJob stFresh.jobs jid = some jobFresh) ∧
    ((scheduler_step stFresh 0).2 = some jid ∧
     (scheduler_step stFresh 0).1.jobs = stFresh.jobs ∧
     (scheduler_step stFresh 0).1.heap = removeEntry stFresh.heap (0, jid) ∧
     (jobFresh.recurring = false →
       (lookupJob (execute_job (scheduler_step stFresh 0).1 jid 0 true).1.jobs jid).map
         Job.status = some Status.done)) :=
  ⟨⟨by decide, by decide, by decide⟩,
   dispatcher_hands_over_unchecked stFresh 0 (0, jid) jobFresh (by decide) (by decide) (by decide)⟩

/-- Claim C7 (amended): dispatch order is by `run_at`, with ties on
equal `run_at` broken by comparing the job-id strings (Python tuple
comparison on `(run_at, id)` heap entries), not by insertion order:
for jobs A (`run_at = t`), B (`run_at = t`), C (`run_at = t + 5`)
submitted in order A, B, C, the dispatcher pops A before B before C
exactly when A's id string compares below B's. -/
theorem dispatch_order_by_time_then_id (t : Int) (a b c pa pb pc : String)
    (hab : strLt a b = true) (hne : a ≠ b) (hac : a ≠ c) (hbc : b ≠ c) :
    (scheduler_step (submitABC t a b c pa pb pc) (t + 5)).2 = some a ∧
    (scheduler_step (scheduler_step (submitABC t a b c pa pb pc) (t + 5)).1 (t + 5)).2 =
      some b ∧
    (scheduler_step (scheduler_step (scheduler_step (submitABC t a b c pa pb pc)
      (t + 5)).1 (t + 5)).1 (t + 5)).2 = some c := by
  have h1 : ¬ (t < t) := lt_irrefl t
  have h2 : t < t + 5 := by omega
  have h3 : t ≤ t + 5 := by omega
  have h4 : ¬ (t + 5 = t) := by omega
  have h5 : t + 5 ≤ t + 5 := le_refl _
  have hba : b ≠ a := hne.symm
  have hca : c ≠ a := hac.symm
  have hcb : c ≠ b := hbc.symm
  simp [submitABC, create_job, scheduler_step, heapMin, entryLt, removeEntry,
        heapPush, insertJob, lookupJob, initState, hab, hne, hba, hac, hca,
        hbc, hcb, h1, h2, h3, h4, h5, Prod.mk.injEq]

/-- Witness for `dispatch_order_by_time_then_id` with A = "a", B = "b",
C = "c" at `t = 0`. -/
theorem dispatch_order_by_time_then_id_witness :
    (strLt uuidB uuidA = true ∧ uuidB ≠ uuidA ∧ uuidB ≠ uuidC ∧ uuidA ≠ uuidC) ∧
    ((scheduler_step (submitABC 0 uuidB uuidA uuidC pl pl pl) (0 + 5)).2 = some uuidB ∧
     (scheduler_step (scheduler_step (submitABC 0 uuidB uuidA uuidC pl pl pl)
       (0 + 5)).1 (0 + 5)).2 = some uuidA ∧
     (scheduler_step (scheduler_step (scheduler_step (submitABC 0 uuidB uuidA uuidC pl pl pl)
       (0 + 5)).1 (0 + 5)).1 (0 + 5)).2 = some uuidC) :=
  ⟨⟨by decide, by decide, by decide, by decide⟩,
   dispatch_order_by_time_then_id 0 uuidB uuidA uuidC pl pl pl
     (by decide) (by decide) (by decide) (by decide)⟩

/-- Claim C8: on a successful run the executor marks the job `done` and
persists; a recurring job is then rescheduled at `run_at = now +
interval`, reset to `scheduled`, re-pushed onto the queue and persisted
again — with the `done` snapshot persisted strictly before the
re-scheduled one; a non-recurring job stays `done` and the queue is
untouched. -/
theorem execute_success_path (st : State) (i : String) (now : Int) (job : Job)
    (h : lookupJob st.jobs i = some job) :
    (job.recurring = true →
      (execute_job st i now true).2 =
        [{ job with status := Status.done },
         { job with status := Status.scheduled, run_at := now + job.interval }] ∧
      lookupJob (execute_job st i now true).1.jobs i =
        some { job with status := Status.scheduled, run_at := now + job.interval } ∧
      (execute_job st i now true).1.heap = heapPush st.heap (now + job.interval, i)) ∧
    (job.recurring = false →
      (execute_job st i now true).2 = [{ job with status := Status.done }] ∧
      lookupJob (execute_job st i now true).1.jobs i =
        some { job with status := Status.done } ∧
      (execute_job st i now true).1.heap = st.heap) := by
  constructor
  · intro hrec
    simp [execute_job, h, hrec, lookupJob_insertJob_self]
  · intro hrec
    simp [execute_job, h, hrec, lookupJob_insertJob_self]

/-- Witness for `execute_success_path` at the recurring Scenario 2 job. -/
theorem execute_success_path_witness :
    lookupJob stRec.jobs jid = some jobRec ∧
    ((jobRec.recurring = true →
      (execute_job stRec jid 5 true).2 =
        [{ jobRec with status := Status.done },
         { jobRec with status := Status.scheduled, run_at := 5 + jobRec.interval }] ∧
      lookupJob (execute_job stRec jid 5 true).1.jobs jid =
        some { jobRec with status := Status.scheduled, run_at := 5 + jobRec.interval } ∧
      (execute_job stRec jid 5 true).1.heap =
        heapPush stRec.heap (5 + jobRec.interval, jid)) ∧
    (jobRec.recurring = false →
      (execute_job stRec jid 5 true).2 = [{ jobRec with status := Status.done }] ∧
      lookupJob (execute_job stRec jid 5 true).1.jobs jid =
        some { jobRec with status := Status.done } ∧
      (execute_job stRec jid 5 true).1.heap = stRec.heap)) :=
  ⟨by decide, execute_success_path stRec jid 5 jobRec (by decide)⟩

/-- Claim C9 (amended): `create_job` performs no validation at all —
for every delay (including non-positive ones) and every interval
(including negative ones) the job is built with status `scheduled` and
`run_at = now + delay`, stored in the map, and its entry pushed onto
the queue. -/
theorem create_job_unconditional (st : State) (now delay : Int) (p i : String)
    (rc : Bool) (iv : Int) :
    (create_job st now delay p i rc iv).2 =
      { id := i, run_at := now + delay, payload := p, status := Status.scheduled,
        retries := 0, recurring := rc, interval := iv } ∧
    lookupJob (create_job st now delay p i rc iv).1.jobs i =
      some (create_job st now delay p i rc iv).2 ∧
    (create_job st now delay p i rc iv).1.heap = heapPush st.heap (now + delay, i) :=
  ⟨rfl, lookupJob_insertJob_self _ _ _, rfl⟩

/-- Jobs not mentioned in the loaded rows are untouched by startup
loading (helper for the startup-load claim). -/
theorem load_untouched (rows : List Job) (st : State) (i : String)
    (h : ∀ r ∈ rows, r.id ≠ i) :
    lookupJob (load_jobs_at_start rows st).jobs i = lookupJob st.jobs i ∧
    entriesFor (load_jobs_at_start rows st).heap i = entriesFor st.heap i := by
  induction rows generalizing st with
  | nil => simp [load_jobs_at_start]
  | cons r rest ih =>
    have hr : r.id ≠ i := h r (by simp)
    have hrest : ∀ x ∈ rest, x.id ≠ i := fun x hx => h x (by simp [hx])
    by_cases hs : r.status ≠ Status.done
    · simp only [load_jobs_at_start, if_pos hs]
      have hih := ih { heap := heapPush st.heap (r.run_at, r.id), jobs := insertJob st.jobs r.id r } hrest
      rw [hih.1, hih.2]
      exact ⟨lookupJob_insertJob_ne _ _ _ _ hr, entriesFor_push_ne _ _ _ _ hr⟩
    · simp only [load_jobs_at_start, if_neg hs]
      exact ih st hrest

/-- Startup loading over any starting state holding no entry for the
job's id (helper for the startup-load claim). -/
theorem load_mem_aux (rows : List Job) (st : State) (j : Job)
    (hmem : j ∈ rows) (hnd : j.status ≠ Status.done)
    (hdist : List.Pairwise (fun a b => a.id ≠ b.id) rows)
    (hheap : entriesFor st.heap j.id = []) :
    lookupJob (load_jobs_at_start rows st).jobs j.id = some j ∧
    entriesFor (load_jobs_at_start rows st).heap j.id = [(j.run_at, j.id)] := by
  induction rows generalizing st with
  | nil => cases hmem
  | cons r rest ih =>
    rcases List.pairwise_cons.1 hdist with ⟨hr, hrest⟩
    cases hmem with
    | head =>
      simp only [load_jobs_at_start, if_pos hnd]
      have hids : ∀ x ∈ rest, x.id ≠ j.id := fun x hx => (hr x hx).symm
      have hlu := load_untouched rest
        { heap := heapPush st.heap (j.run_at, j.id), jobs := insertJob st.jobs j.id j } j.id hids
      rw [hlu.1, hlu.2]
      refine ⟨lookupJob_insertJob_self _ _ _, ?_⟩
      rw [entriesFor_push_self, hheap]
    | tail _ hmem' =>
      have hrj : r.id ≠ j.id := hr j hmem'
      by_cases hs : r.status ≠ Status.done
      · simp only [load_jobs_at_start, if_pos hs]
        refine ih _ hmem' hrest ?_
        rw [entriesFor_push_ne _ _ _ _ hrj]
        exact hheap
      · simp only [load_jobs_at_start, if_neg hs]
        exact ih st hmem' hrest hheap

/-- Claim C10: after startup loading of persisted rows with distinct
ids, every row whose status is not `done` — including `cancelled`,
`dead` and `running` rows — is present in the in-memory map exactly as
persisted and has exactly one queue entry, keyed by its persisted
`run_at`. -/
theorem startup_load_restores_active_jobs (rows : List Job) (j : Job)
    (hmem : j ∈ rows) (hnd : j.status ≠ Status.done)
    (hdist : List.Pairwise (fun a b => a.id ≠ b.id) rows) :
    lookupJob (load_jobs_at_start rows initState).jobs j.id = some j ∧
    entriesFor (load_jobs_at_start rows initState).heap j.id = [(j.run_at, j.id)] :=
  load_mem_aux rows initState j hmem hnd hdist rfl

/-- Witness for `startup_load_restores_active_jobs` at the persisted
`cancelled` row. -/
theorem startup_load_restores_active_jobs_witness :
    (rowCancelled ∈ startupRows ∧ rowCancelled.status ≠ Status.done ∧
     List.Pairwise (fun a b => a.id ≠ b.id) startupRows) ∧
    (lookupJob (load_jobs_at_start startupRows initState).jobs rowCancelled.id =
       some rowCancelled ∧
     entriesFor (load_jobs_at_start startupRows initState).heap rowCancelled.id =
       [(rowCancelled.run_at, rowCancelled.id)]) :=
  ⟨⟨by decide, by decide, by decide⟩,
   startup_load_restores_active_jobs startupRows rowCancelled
     (by decide) (by decide) (by decide)⟩

end Scheduler
